import Mathlib

/-!
Verification of the canvas-based ad-preview rendering pipeline of
`frontend/src/components/AIAdGenerator.tsx` (components `AIAdGenerator` and
`RealTimeCustomization`).

Modelling conventions:
* JavaScript strings that are manipulated character-wise (split, concatenation,
  substring facts) are modelled as `List Char`; strings that are only compared
  for equality (colors, layout names, alignment names, font families) stay
  `String`.
* JavaScript numbers are modelled as `ℚ`.  Every arithmetic operation the
  renderer performs (sums, differences, halving of even surface sizes) is
  exact in IEEE doubles, so `ℚ` agrees with the source on every value the
  theorems below mention.
* Canvas text measurement (`ctx.measureText(...).width`) depends on the
  current font and is browser-supplied; it is modelled as an arbitrary
  function `μ : Font → List Char → ℚ` (the "deterministic text-measurement
  backend" of the specification).
-/

namespace AlphaCreatorAds

/-- A JavaScript string, modelled character-wise. -/
abbrev JSStr := List Char

/-- Coerce a Lean string literal to the `List Char` model. -/
def sLit (s : String) : JSStr := s.toList

/-- `text.split(' ')` from JavaScript: split on every single space, keeping
empty fragments (so `"".split(' ') = [""]` and `"a  b"` yields an empty middle
word).  Never returns the empty list. -/
def splitSpace : JSStr → List JSStr
  | [] => [[]]
  | c :: rest =>
    if c = ' ' then
      [] :: splitSpace rest
    else
      match splitSpace rest with
      | [] => [[c]]
      | w :: ws => (c :: w) :: ws

/-- Joining a word list with single spaces (`words.join(' ')`), the inverse of
`splitSpace`. -/
def joinSpace : List JSStr → JSStr
  | [] => []
  | [w] => w
  | w :: ws => w ++ ' ' :: joinSpace ws

/-- The loop body of `wrapText` / `drawText` from the source: fold the
remaining words into the current line while the measured width of
`currentLine + ' ' + word` stays strictly below `maxWidth`; otherwise push the
current line and start a new one with the word.  `μf` is the text measure for
the currently configured font. -/
def wrapLoop (μf : JSStr → ℚ) (maxWidth : ℚ) : JSStr → List JSStr → List JSStr
  | currentLine, [] => [currentLine]
  | currentLine, word :: ws =>
    if μf (currentLine ++ ' ' :: word) < maxWidth then
      wrapLoop μf maxWidth (currentLine ++ ' ' :: word) ws
    else
      currentLine :: wrapLoop μf maxWidth word ws

/-- `wrapText(ctx, text, maxWidth)` from `AIAdGenerator` (the identical loop is
inlined in `RealTimeCustomization.drawText`): greedy word wrap of `text` split
on spaces.  `splitSpace` never returns `[]`, so the first branch is
unreachable; it mirrors `words[0]` being `undefined` in the source, which
cannot happen either. -/
def wrapText (μf : JSStr → ℚ) (text : JSStr) (maxWidth : ℚ) : List JSStr :=
  match splitSpace text with
  | [] => []
  | w :: ws => wrapLoop μf maxWidth w ws

theorem splitSpace_ne_nil (s : JSStr) : splitSpace s ≠ [] := by
  cases s with
  | nil => simp [splitSpace]
  | cons c rest =>
    simp only [splitSpace]
    split
    · simp
    · cases h : splitSpace rest <;> simp

theorem joinSpace_cons_of_ne_nil (w : JSStr) (ws : List JSStr) (h : ws ≠ []) :
    joinSpace (w :: ws) = w ++ ' ' :: joinSpace ws := by
  cases ws with
  | nil => exact absurd rfl h
  | cons v vs => rfl

theorem joinSpace_glue (a w : JSStr) (ws : List JSStr) :
    joinSpace ((a ++ ' ' :: w) :: ws) = a ++ ' ' :: joinSpace (w :: ws) := by
  cases ws with
  | nil => rfl
  | cons v vs =>
    show (a ++ ' ' :: w) ++ ' ' :: joinSpace (v :: vs)
        = a ++ ' ' :: (w ++ ' ' :: joinSpace (v :: vs))
    simp

theorem joinSpace_splitSpace (s : JSStr) : joinSpace (splitSpace s) = s := by
  induction s with
  | nil => rfl
  | cons c rest ih =>
    simp only [splitSpace]
    split
    · rename_i hc
      rw [joinSpace_cons_of_ne_nil _ _ (splitSpace_ne_nil rest), ih, hc]
      rfl
    · cases h : splitSpace rest with
      | nil => exact absurd h (splitSpace_ne_nil rest)
      | cons w ws =>
        rw [h] at ih
        cases ws with
        | nil => simpa [joinSpace] using ih
        | cons v vs =>
          show (c :: w) ++ ' ' :: joinSpace (v :: vs) = c :: rest
          have : joinSpace (w :: v :: vs) = w ++ ' ' :: joinSpace (v :: vs) := rfl
          rw [this] at ih
          simpa using ih

theorem wrapLoop_ne_nil (μf : JSStr → ℚ) (maxWidth : ℚ) (cur : JSStr)
    (ws : List JSStr) : wrapLoop μf maxWidth cur ws ≠ [] := by
  cases ws with
  | nil => simp [wrapLoop]
  | cons w rest =>
    simp only [wrapLoop]
    split
    · exact wrapLoop_ne_nil μf maxWidth _ rest
    · simp

theorem joinSpace_wrapLoop (μf : JSStr → ℚ) (maxWidth : ℚ) (cur : JSStr)
    (ws : List JSStr) :
    joinSpace (wrapLoop μf maxWidth cur ws) = joinSpace (cur :: ws) := by
  induction ws generalizing cur with
  | nil => rfl
  | cons w rest ih =>
    simp only [wrapLoop]
    split
    · rw [ih, joinSpace_glue]
      rfl
    · rw [joinSpace_cons_of_ne_nil _ _ (wrapLoop_ne_nil μf maxWidth w rest), ih]
      rfl

/-- Every line produced by the wrap loop either measures strictly below
`maxWidth` or is the initial line / one of the input words, placed unchanged. -/
theorem wrapLoop_mem (μf : JSStr → ℚ) (maxWidth : ℚ) (cur : JSStr)
    (ws : List JSStr) (line : JSStr) (hline : line ∈ wrapLoop μf maxWidth cur ws) :
    μf line < maxWidth ∨ line = cur ∨ line ∈ ws := by
  induction ws generalizing cur with
  | nil =>
    simp only [wrapLoop, List.mem_singleton] at hline
    exact Or.inr (Or.inl hline)
  | cons w rest ih =>
    simp only [wrapLoop] at hline
    split at hline
    · rename_i hlt
      rcases ih _ hline with h | h | h
      · exact Or.inl h
      · exact Or.inl (h ▸ hlt)
      · exact Or.inr (Or.inr (List.mem_cons_of_mem w h))
    · rcases List.mem_cons.mp hline with h | h
      · exact Or.inr (Or.inl h)
      · rcases ih _ h with h' | h' | h'
        · exact Or.inl h'
        · exact Or.inr (Or.inr (h' ▸ List.mem_cons_self w rest))
        · exact Or.inr (Or.inr (List.mem_cons_of_mem w h'))

/-! ## Data model of the `RealTimeCustomization` renderer -/

/-- The ad copy (`selectedAd.content`). -/
structure AdContent where
  headline : JSStr
  description : JSStr
  callToAction : JSStr
  deriving DecidableEq

/-- The render-relevant fields of the `customizations` state object of
`RealTimeCustomization`. -/
structure Customizations where
  backgroundColor : String
  textColor : String
  accentColor : String
  fontSize : ℚ
  fontFamily : String
  borderRadius : ℚ
  shadow : ℚ
  layout : String
  textAlignment : String
  padding : ℚ
  headlineVariation : Int
  descriptionVariation : Int
  ctaVariation : Int
  deriving DecidableEq

/-- The initial value passed to `useState` for `customizations` in the
source. -/
def defaultCustomizations : Customizations where
  backgroundColor := "#ffffff"
  textColor := "#000000"
  accentColor := "#007bff"
  fontSize := 16
  fontFamily := "Inter"
  borderRadius := 8
  shadow := 2
  layout := "standard"
  textAlignment := "left"
  padding := 20
  headlineVariation := 0
  descriptionVariation := 0
  ctaVariation := 0

/-! ## Content variation resolution (`getContentVariation`) -/

/-- The three content fields `getContentVariation` accepts
(`'headline' | 'description' | 'cta'` in the source). -/
inductive VarField where
  | headline
  | description
  | cta
  deriving DecidableEq

/-- `customizations[`${type}Variation`]` from the source. -/
def variationIndex (c : Customizations) : VarField → Int
  | .headline => c.headlineVariation
  | .description => c.descriptionVariation
  | .cta => c.ctaVariation

/-- The fixed `variations` table built inside `getContentVariation`. -/
def variations (field : VarField) (originalText : JSStr) : List JSStr :=
  match field with
  | .headline =>
      [originalText,
       originalText ++ sLit " - Limited Time!",
       sLit "New: " ++ originalText,
       originalText ++ sLit " 🔥"]
  | .description =>
      [originalText,
       originalText ++ sLit " Act now!",
       sLit "Exclusive: " ++ originalText,
       originalText ++ sLit " Don't miss out!"]
  | .cta =>
      [originalText,
       sLit "Get Started",
       sLit "Learn More",
       sLit "Try Now",
       sLit "Shop Today"]

/-- JavaScript array indexing `arr[i]`: `undefined` (here `none`) for any
index that is negative or not below the length. -/
def jsIndex (l : List JSStr) (i : Int) : Option JSStr :=
  if h : 0 ≤ i ∧ i.toNat < l.length then some (l.get ⟨i.toNat, h.2⟩) else none

/-- The JavaScript `x || d` fallback applied to an optional string: both
`undefined` and the empty string (the only falsy string) fall back to `d`. -/
def orFalsy (v : Option JSStr) (d : JSStr) : JSStr :=
  match v with
  | some s => if s = [] then d else s
  | none => d

/-- `getContentVariation(type, originalText)` from `RealTimeCustomization`:
`variations[type][variationIndex] || originalText`.  Total — it never throws,
and `orFalsy` means it never returns `undefined`. -/
def getContentVariation (c : Customizations) (field : VarField)
    (originalText : JSStr) : JSStr :=
  orFalsy (jsIndex (variations field originalText) (variationIndex c field))
    originalText

/-! ## Layout resolution (`getCanvasDimensions`, `calculateLayout`) -/

/-- A text anchor region (`{x, y, maxWidth}`). -/
structure TextRegion where
  x : ℚ
  y : ℚ
  maxWidth : ℚ
  deriving DecidableEq

/-- The CTA rectangle (`{x, y, width, height}`). -/
structure RectRegion where
  x : ℚ
  y : ℚ
  width : ℚ
  height : ℚ
  deriving DecidableEq

/-- Result of `calculateLayout`. -/
structure AdLayout where
  headline : TextRegion
  description : TextRegion
  cta : RectRegion
  deriving DecidableEq

/-- `getCanvasDimensions(mode)` from the source: mobile 320×400, tablet
768×500, anything else (the `desktop` default) 600×400. -/
def getCanvasDimensions (mode : String) : ℚ × ℚ :=
  match mode with
  | "mobile" => (320, 400)
  | "tablet" => (768, 500)
  | _ => (600, 400)

/-- `calculateLayout(width, height)` from the source, a pure function of the
layout mode, surface size and padding. -/
def calculateLayout (c : Customizations) (width height : ℚ) : AdLayout :=
  let padding := c.padding
  match c.layout with
  | "centered" =>
      { headline := ⟨width / 2, padding + 40, width - padding * 2⟩
        description := ⟨width / 2, padding + 100, width - padding * 2⟩
        cta := ⟨width / 2 - 60, height - padding - 50, 120, 40⟩ }
  | "split" =>
      { headline := ⟨padding, padding + 40, width / 2 - padding⟩
        description := ⟨padding, padding + 100, width / 2 - padding⟩
        cta := ⟨width / 2 + padding, height / 2 - 20, 120, 40⟩ }
  | _ =>
      { headline := ⟨padding, padding + 40, width - padding * 2⟩
        description := ⟨padding, padding + 100, width - padding * 2⟩
        cta := ⟨padding, height - padding - 50, 120, 40⟩ }

/-! ## The render pipeline (`updatePreview` and its helpers)

The canvas drawing calls are reified as a list of drawing operations; each
pixel-producing operation records the context state (fill style, font, text
alignment) in force when it was issued, and a `clipped` flag that is `true`
exactly when the operation was issued between `ctx.clip()` and
`ctx.restore()`.  The trailing shadow configuration and `applyAnimation()`
issue no drawing command (the shadow state is set after everything has been
drawn, and `applyAnimation` has an empty body), so they contribute no
operation. -/

/-- A canvas font setting, `"bold? {size}px {family}"`. -/
structure Font where
  bold : Bool
  size : ℚ
  family : String
  deriving DecidableEq

/-- A reified canvas drawing operation. -/
inductive Op where
  | fillRect (color : String) (x y w h : ℚ) (clipped : Bool)
  | gradientFillRect (gx0 gy0 gx1 gy1 : ℚ) (stops : List (ℚ × String))
      (x y w h : ℚ) (clipped : Bool)
  | fillText (color : String) (font : Font) (align : String) (text : JSStr)
      (x y : ℚ) (clipped : Bool)
  | clipRoundRect (x y w h radius : ℚ)
  deriving DecidableEq

/-- Whether an operation is the gradient overlay. -/
def Op.isGradient : Op → Bool
  | .gradientFillRect .. => true
  | _ => false

/-- The `clipped` flag of a drawing operation (the clip-path installation
itself counts as clipped). -/
def Op.clippedFlag : Op → Bool
  | .fillRect _ _ _ _ _ cl => cl
  | .gradientFillRect _ _ _ _ _ _ _ _ _ cl => cl
  | .fillText _ _ _ _ _ _ cl => cl
  | .clipRoundRect _ _ _ _ _ => true

/-- The text alignment of a `fillText` operation, `none` otherwise. -/
def Op.textAlign : Op → Option String
  | .fillText _ _ align _ _ _ _ => some align
  | _ => none

/-- The alpha suffix the source appends to the accent color for the gradient
end stop (`customizations.accentColor + '20'`). -/
def gradientAlphaSuffix : String := "20"

/-- Value of a hexadecimal digit character. -/
def hexDigit (c : Char) : Option Nat :=
  if '0' ≤ c ∧ c ≤ '9' then some (c.toNat - '0'.toNat)
  else if 'a' ≤ c ∧ c ≤ 'f' then some (c.toNat - 'a'.toNat + 10)
  else if 'A' ≤ c ∧ c ≤ 'F' then some (c.toNat - 'A'.toNat + 10)
  else none

/-- Value of a two-hex-digit byte such as a CSS hex-alpha suffix. -/
def hexByte (s : String) : Option Nat :=
  match s.toList with
  | [hi, lo] =>
    match hexDigit hi, hexDigit lo with
    | some a, some b => some (16 * a + b)
    | _, _ => none
  | _ => none

/-- The clear / background fill: `ctx.fillRect(0, 0, w, h)` with
`backgroundColor`, issued before the border-radius clip is installed. -/
def backgroundOps (c : Customizations) (w h : ℚ) : List Op :=
  [.fillRect c.backgroundColor 0 0 w h false]

/-- The border-radius clip: `roundRect(...)` + `ctx.clip()` when
`borderRadius > 0`. -/
def clipOps (c : Customizations) (w h : ℚ) : List Op :=
  if 0 < c.borderRadius then [.clipRoundRect 0 0 w h c.borderRadius] else []

/-- The gradient overlay: drawn only when the accent color differs from the
background color, as a diagonal linear gradient from `backgroundColor` at
stop 0 to `accentColor + '20'` at stop 1, covering the whole surface. -/
def gradientOps (c : Customizations) (w h : ℚ) : List Op :=
  if c.accentColor ≠ c.backgroundColor then
    [.gradientFillRect 0 0 w h
      [(0, c.backgroundColor), (1, c.accentColor ++ gradientAlphaSuffix)]
      0 0 w h (decide (0 < c.borderRadius))]
  else []

/-- The bold headline font `bold ${fontSize + 4}px ${fontFamily}`. -/
def headlineFont (c : Customizations) : Font :=
  ⟨true, c.fontSize + 4, c.fontFamily⟩

/-- The body font `${fontSize}px ${fontFamily}`. -/
def bodyFont (c : Customizations) : Font :=
  ⟨false, c.fontSize, c.fontFamily⟩

/-- `drawText` from the source: wrap `text` to `maxWidth` with the current
font's measure and emit one `fillText` per line at
`y + index * (fontSize + 5)`. -/
def drawText (μf : JSStr → ℚ) (color : String) (font : Font) (align : String)
    (clipped : Bool) (fontSize : ℚ) (text : JSStr) (x y maxWidth : ℚ) :
    List Op :=
  (wrapText μf text maxWidth).enum.map fun p =>
    .fillText color font align p.2 x (y + p.1 * (fontSize + 5)) clipped

/-- The headline drawing stage of `updatePreview`. -/
def headlineOps (μ : Font → JSStr → ℚ) (c : Customizations) (content : AdContent)
    (w h : ℚ) : List Op :=
  let L := calculateLayout c w h
  drawText (μ (headlineFont c)) c.textColor (headlineFont c) c.textAlignment
    (decide (0 < c.borderRadius)) c.fontSize
    (getContentVariation c .headline content.headline)
    L.headline.x L.headline.y L.headline.maxWidth

/-- The description drawing stage of `updatePreview`. -/
def descriptionOps (μ : Font → JSStr → ℚ) (c : Customizations)
    (content : AdContent) (w h : ℚ) : List Op :=
  let L := calculateLayout c w h
  drawText (μ (bodyFont c)) c.textColor (bodyFont c) c.textAlignment
    (decide (0 < c.borderRadius)) c.fontSize
    (getContentVariation c .description content.description)
    L.description.x L.description.y L.description.maxWidth

/-- `drawButton` from the source, applied to the CTA region: accent-colored
rectangle plus a white, center-aligned, bold label at the rectangle's
midpoint (label baseline `y + height/2 + fontSize/3`). -/
def buttonOps (c : Customizations) (content : AdContent) (w h : ℚ) : List Op :=
  let L := calculateLayout c w h
  let cl := decide (0 < c.borderRadius)
  let text := getContentVariation c .cta content.callToAction
  [.fillRect c.accentColor L.cta.x L.cta.y L.cta.width L.cta.height cl,
   .fillText "#ffffff" ⟨true, c.fontSize, c.fontFamily⟩ "center" text
     (L.cta.x + L.cta.width / 2) (L.cta.y + L.cta.height / 2 + c.fontSize / 3)
     cl]

/-- `updatePreview` from `RealTimeCustomization`, reified as the sequence of
drawing operations it issues: background fill, optional clip, optional
gradient, headline, description, CTA button — in source order. -/
def updatePreview (μ : Font → JSStr → ℚ) (c : Customizations)
    (content : AdContent) (previewMode : String) : List Op :=
  let w := (getCanvasDimensions previewMode).1
  let h := (getCanvasDimensions previewMode).2
  backgroundOps c w h ++ clipOps c w h ++ gradientOps c w h ++
    headlineOps μ c content w h ++ descriptionOps μ c content w h ++
    buttonOps c content w h

/-! ## The canvas surface -/

/-- A canvas surface: its dimensions and the drawing operations issued since
the last reset (which determine its pixels). -/
structure Canvas where
  width : ℚ
  height : ℚ
  ops : List Op
  deriving DecidableEq

/-- Assigning `canvas.width` / `canvas.height` — per the HTML canvas
specification this resets the bitmap and the context state even when the
assigned value equals the current one. -/
def setCanvasSize (_cv : Canvas) (w h : ℚ) : Canvas := ⟨w, h, []⟩

/-- One invocation of `updatePreview` as a transformation of the surface:
first the dimension assignment (which resets the surface), then the drawing
operations. -/
def render (μ : Font → JSStr → ℚ) (c : Customizations) (content : AdContent)
    (previewMode : String) (cv : Canvas) : Canvas :=
  let w := (getCanvasDimensions previewMode).1
  let h := (getCanvasDimensions previewMode).2
  let cv' := setCanvasSize cv w h
  { cv' with ops := cv'.ops ++ updatePreview μ c content previewMode }

/-- A concrete deterministic text-measurement backend (one advance unit per
character), used to instantiate theorems at concrete inputs. -/
def lengthMeasure : Font → JSStr → ℚ := fun _ s => (s.length : ℚ)

/-- The ad copy of the specification's standard-layout scenario. -/
def sampleContent : AdContent :=
  ⟨sLit "Save Today", sLit "Get 20% off", sLit "Shop Now"⟩

/-! ## Evaluation and structure lemmas -/

@[simp] theorem getCanvasDimensions_desktop :
    getCanvasDimensions "desktop" = (600, 400) := rfl

@[simp] theorem getCanvasDimensions_mobile :
    getCanvasDimensions "mobile" = (320, 400) := rfl

@[simp] theorem getCanvasDimensions_tablet :
    getCanvasDimensions "tablet" = (768, 500) := rfl

theorem calculateLayout_centered (c : Customizations) (w h : ℚ)
    (hl : c.layout = "centered") :
    calculateLayout c w h =
      { headline := ⟨w / 2, c.padding + 40, w - c.padding * 2⟩
        description := ⟨w / 2, c.padding + 100, w - c.padding * 2⟩
        cta := ⟨w / 2 - 60, h - c.padding - 50, 120, 40⟩ } := by
  unfold calculateLayout
  rw [hl]
  rfl

theorem calculateLayout_split (c : Customizations) (w h : ℚ)
    (hl : c.layout = "split") :
    calculateLayout c w h =
      { headline := ⟨c.padding, c.padding + 40, w / 2 - c.padding⟩
        description := ⟨c.padding, c.padding + 100, w / 2 - c.padding⟩
        cta := ⟨w / 2 + c.padding, h / 2 - 20, 120, 40⟩ } := by
  unfold calculateLayout
  rw [hl]
  rfl

theorem calculateLayout_default (c : Customizations) (w h : ℚ)
    (h1 : c.layout ≠ "centered") (h2 : c.layout ≠ "split") :
    calculateLayout c w h =
      { headline := ⟨c.padding, c.padding + 40, w - c.padding * 2⟩
        description := ⟨c.padding, c.padding + 100, w - c.padding * 2⟩
        cta := ⟨c.padding, h - c.padding - 50, 120, 40⟩ } := by
  unfold calculateLayout
  split
  · rename_i heq; exact absurd heq h1
  · rename_i heq; exact absurd heq h2
  · rfl

theorem drawText_clippedFlag (μf : JSStr → ℚ) (color : String) (font : Font)
    (align : String) (cl : Bool) (fontSize : ℚ) (text : JSStr) (x y mw : ℚ)
    (op : Op) (hop : op ∈ drawText μf color font align cl fontSize text x y mw) :
    op.clippedFlag = cl := by
  simp only [drawText, List.mem_map] at hop
  obtain ⟨p, _, rfl⟩ := hop
  rfl

theorem drawText_textAlign (μf : JSStr → ℚ) (color : String) (font : Font)
    (align : String) (cl : Bool) (fontSize : ℚ) (text : JSStr) (x y mw : ℚ)
    (op : Op) (hop : op ∈ drawText μf color font align cl fontSize text x y mw) :
    op.textAlign = some align := by
  simp only [drawText, List.mem_map] at hop
  obtain ⟨p, _, rfl⟩ := hop
  rfl

theorem drawText_not_gradient (μf : JSStr → ℚ) (color : String) (font : Font)
    (align : String) (cl : Bool) (fontSize : ℚ) (text : JSStr) (x y mw : ℚ)
    (op : Op) (hop : op ∈ drawText μf color font align cl fontSize text x y mw) :
    op.isGradient = false := by
  simp only [drawText, List.mem_map] at hop
  obtain ⟨p, _, rfl⟩ := hop
  rfl

theorem buttonOps_clippedFlag (c : Customizations) (content : AdContent)
    (w h : ℚ) (op : Op) (hop : op ∈ buttonOps c content w h) :
    op.clippedFlag = decide (0 < c.borderRadius) := by
  simp only [buttonOps, List.mem_cons, List.mem_singleton] at hop
  rcases hop with rfl | rfl | hop
  · rfl
  · rfl
  · exact absurd hop (List.not_mem_nil _)

theorem buttonOps_not_gradient (c : Customizations) (content : AdContent)
    (w h : ℚ) (op : Op) (hop : op ∈ buttonOps c content w h) :
    op.isGradient = false := by
  simp only [buttonOps, List.mem_cons, List.mem_singleton] at hop
  rcases hop with rfl | rfl | hop
  · rfl
  · rfl
  · exact absurd hop (List.not_mem_nil _)

theorem gradientOps_clippedFlag (c : Customizations) (w h : ℚ) (op : Op)
    (hop : op ∈ gradientOps c w h) :
    op.clippedFlag = decide (0 < c.borderRadius) := by
  unfold gradientOps at hop
  split at hop
  · simp only [List.mem_singleton] at hop
    subst hop
    rfl
  · exact absurd hop (List.not_mem_nil _)

theorem mem_gradientOps (c : Customizations) (w h : ℚ)
    (hne : c.accentColor ≠ c.backgroundColor) :
    Op.gradientFillRect 0 0 w h
        [(0, c.backgroundColor), (1, c.accentColor ++ gradientAlphaSuffix)]
        0 0 w h (decide (0 < c.borderRadius)) ∈ gradientOps c w h := by
  unfold gradientOps
  rw [if_pos hne]
  exact List.mem_singleton.mpr rfl

theorem gradientOps_empty (c : Customizations) (w h : ℚ)
    (heq : c.accentColor = c.backgroundColor) : gradientOps c w h = [] := by
  unfold gradientOps
  rw [if_neg (by simpa using heq)]

theorem getContentVariation_cta_one (c : Customizations)
    (h : c.ctaVariation = 1) (o : JSStr) :
    getContentVariation c .cta o = sLit "Get Started" := by
  unfold getContentVariation variationIndex jsIndex orFalsy variations
  rw [h]
  rfl

theorem getContentVariation_cta_two (c : Customizations)
    (h : c.ctaVariation = 2) (o : JSStr) :
    getContentVariation c .cta o = sLit "Learn More" := by
  unfold getContentVariation variationIndex jsIndex orFalsy variations
  rw [h]
  rfl

theorem getContentVariation_cta_three (c : Customizations)
    (h : c.ctaVariation = 3) (o : JSStr) :
    getContentVariation c .cta o = sLit "Try Now" := by
  unfold getContentVariation variationIndex jsIndex orFalsy variations
  rw [h]
  rfl

theorem getContentVariation_cta_four (c : Customizations)
    (h : c.ctaVariation = 4) (o : JSStr) :
    getContentVariation c .cta o = sLit "Shop Today" := by
  unfold getContentVariation variationIndex jsIndex orFalsy variations
  rw [h]
  rfl

theorem lengthMeasure_apply (f : Font) :
    lengthMeasure f = fun s => (s.length : ℚ) := rfl

theorem getCanvasDimensions_other (mode : String) (h1 : mode ≠ "mobile")
    (h2 : mode ≠ "tablet") : getCanvasDimensions mode = (600, 400) := by
  unfold getCanvasDimensions
  split <;> simp_all

theorem backgroundOps_not_gradient (c : Customizations) (w h : ℚ) (op : Op)
    (hop : op ∈ backgroundOps c w h) : op.isGradient = false := by
  simp only [backgroundOps, List.mem_singleton] at hop
  subst hop
  rfl

theorem clipOps_not_gradient (c : Customizations) (w h : ℚ) (op : Op)
    (hop : op ∈ clipOps c w h) : op.isGradient = false := by
  unfold clipOps at hop
  split at hop
  · simp only [List.mem_singleton] at hop
    subst hop
    rfl
  · exact absurd hop (List.not_mem_nil _)

theorem headlineOps_clippedFlag (μ : Font → JSStr → ℚ) (c : Customizations)
    (content : AdContent) (w h : ℚ) (op : Op)
    (hop : op ∈ headlineOps μ c content w h) :
    op.clippedFlag = decide (0 < c.borderRadius) := by
  unfold headlineOps at hop
  exact drawText_clippedFlag _ _ _ _ _ _ _ _ _ _ _ hop

theorem descriptionOps_clippedFlag (μ : Font → JSStr → ℚ) (c : Customizations)
    (content : AdContent) (w h : ℚ) (op : Op)
    (hop : op ∈ descriptionOps μ c content w h) :
    op.clippedFlag = decide (0 < c.borderRadius) := by
  unfold descriptionOps at hop
  exact drawText_clippedFlag _ _ _ _ _ _ _ _ _ _ _ hop

theorem headlineOps_not_gradient (μ : Font → JSStr → ℚ) (c : Customizations)
    (content : AdContent) (w h : ℚ) (op : Op)
    (hop : op ∈ headlineOps μ c content w h) : op.isGradient = false := by
  unfold headlineOps at hop
  exact drawText_not_gradient _ _ _ _ _ _ _ _ _ _ _ hop

theorem descriptionOps_not_gradient (μ : Font → JSStr → ℚ) (c : Customizations)
    (content : AdContent) (w h : ℚ) (op : Op)
    (hop : op ∈ descriptionOps μ c content w h) : op.isGradient = false := by
  unfold descriptionOps at hop
  exact drawText_not_gradient _ _ _ _ _ _ _ _ _ _ _ hop

theorem headlineOps_textAlign (μ : Font → JSStr → ℚ) (c : Customizations)
    (content : AdContent) (w h : ℚ) (op : Op)
    (hop : op ∈ headlineOps μ c content w h) :
    op.textAlign = some c.textAlignment := by
  unfold headlineOps at hop
  exact drawText_textAlign _ _ _ _ _ _ _ _ _ _ _ hop

theorem descriptionOps_textAlign (μ : Font → JSStr → ℚ) (c : Customizations)
    (content : AdContent) (w h : ℚ) (op : Op)
    (hop : op ∈ descriptionOps μ c content w h) :
    op.textAlign = some c.textAlignment := by
  unfold descriptionOps at hop
  exact drawText_textAlign _ _ _ _ _ _ _ _ _ _ _ hop

/-! ## Region-bounds predicates

`layoutInBounds` reads the specification's "every computed region lies fully
within `[0, surfaceWidth] x [0, surfaceHeight]`" with every region anchored at
its `(x, y)` corner — the text regions spanning `[x, x + maxWidth]`, the CTA
rectangle spanning `[x, x + width] x [y, y + height]`.
`layoutInBoundsCenteredText` is the amended reading forced by the centered
layout, whose text `x` is the horizontal midpoint: there the text region spans
`[x - maxWidth/2, x + maxWidth/2]`. -/

/-- A text region, anchored at its left edge, lies within the surface. -/
def textRegionInBounds (r : TextRegion) (w h : ℚ) : Prop :=
  0 ≤ r.x ∧ r.x + r.maxWidth ≤ w ∧ 0 ≤ r.y ∧ r.y ≤ h

/-- A text region, anchored at its horizontal midpoint, lies within the
surface. -/
def textRegionInBoundsCentered (r : TextRegion) (w h : ℚ) : Prop :=
  0 ≤ r.x - r.maxWidth / 2 ∧ r.x + r.maxWidth / 2 ≤ w ∧ 0 ≤ r.y ∧ r.y ≤ h

/-- The CTA rectangle lies within the surface. -/
def rectRegionInBounds (r : RectRegion) (w h : ℚ) : Prop :=
  0 ≤ r.x ∧ r.x + r.width ≤ w ∧ 0 ≤ r.y ∧ r.y + r.height ≤ h

/-- The claim as stated: every region, read as anchored at its `(x, y)`
corner, lies within the surface. -/
def layoutInBounds (L : AdLayout) (w h : ℚ) : Prop :=
  textRegionInBounds L.headline w h ∧ textRegionInBounds L.description w h ∧
    rectRegionInBounds L.cta w h

/-- The amended bounds property: for the centered layout the text regions are
anchored at their horizontal midpoint, all other regions at their corner. -/
def layoutInBoundsCenteredText (c : Customizations) (L : AdLayout) (w h : ℚ) :
    Prop :=
  (if c.layout = "centered" then
      textRegionInBoundsCentered L.headline w h ∧
        textRegionInBoundsCentered L.description w h
    else
      textRegionInBounds L.headline w h ∧ textRegionInBounds L.description w h) ∧
    rectRegionInBounds L.cta w h

/-! ## Claims -/

/-- C1.  For every measurement backend, every input string and every
`maxWidth > 0`, each line the greedy word wrap produces either has measured
width at most `maxWidth`, or is verbatim one of the space-separated words of
the input — i.e. a single word (one that is itself wider than `maxWidth`) is
still placed alone on its own line rather than dropped. -/
theorem wrapText_line_width_le (μf : JSStr → ℚ) (text : JSStr) (maxWidth : ℚ)
    (_hmw : 0 < maxWidth) (line : JSStr)
    (hline : line ∈ wrapText μf text maxWidth) :
    μf line ≤ maxWidth ∨ line ∈ splitSpace text := by
  unfold wrapText at hline
  cases h : splitSpace text with
  | nil => exact absurd h (splitSpace_ne_nil text)
  | cons w ws =>
    rw [h] at hline
    rcases wrapLoop_mem μf maxWidth w ws line hline with hlt | rfl | hmem
    · exact Or.inl hlt.le
    · exact Or.inr (List.mem_cons_self _ _)
    · exact Or.inr (List.mem_cons_of_mem _ hmem)

/-- Witness for C1 at a concrete input: wrapping `"hello world"` at width 6
with a one-unit-per-character measure. -/
theorem wrapText_line_width_le_witness :
    (0 : ℚ) < 6 ∧
      sLit "hello" ∈ wrapText (fun s => (s.length : ℚ)) (sLit "hello world") 6 ∧
      ((fun s : JSStr => (s.length : ℚ)) (sLit "hello") ≤ 6 ∨
        sLit "hello" ∈ splitSpace (sLit "hello world")) :=
  ⟨by norm_num, by decide,
    wrapText_line_width_le (fun s => (s.length : ℚ)) (sLit "hello world") 6
      (by norm_num) (sLit "hello") (by decide)⟩

/-- C9.  Joining the wrapped lines with single spaces reproduces the input
string exactly (no word dropped, duplicated or reordered), the produced list
is never empty, and on the empty string it is the one-element list holding the
empty line. -/
theorem wrapText_join (μf : JSStr → ℚ) (text : JSStr) (maxWidth : ℚ) :
    joinSpace (wrapText μf text maxWidth) = text ∧
      wrapText μf text maxWidth ≠ [] ∧
      (text = [] → wrapText μf text maxWidth = [[]]) := by
  refine ⟨?_, ?_, ?_⟩
  · unfold wrapText
    cases h : splitSpace text with
    | nil => exact absurd h (splitSpace_ne_nil text)
    | cons w ws =>
      rw [joinSpace_wrapLoop, ← h, joinSpace_splitSpace]
  · unfold wrapText
    cases h : splitSpace text with
    | nil => exact absurd h (splitSpace_ne_nil text)
    | cons w ws => exact wrapLoop_ne_nil μf maxWidth w ws
  · intro h
    subst h
    rfl

/-- Witness for C9 at a concrete input (the empty string, discharging the
conditional hypothesis). -/
theorem wrapText_join_witness :
    joinSpace (wrapText (fun s => (s.length : ℚ)) [] 10) = [] ∧
      wrapText (fun s => (s.length : ℚ)) [] 10 = [[]] :=
  ⟨(wrapText_join (fun s => (s.length : ℚ)) [] 10).1,
    (wrapText_join (fun s => (s.length : ℚ)) [] 10).2.2 rfl⟩

/-- C6.  For every variation index outside the bounds of the variant array
(negative, or at least the array length) the content-variation resolution
returns the original string for that field.  (`getContentVariation` is a total
Lean function: it cannot throw, and `orFalsy` never returns the JavaScript
`undefined`.) -/
theorem variation_fallback_out_of_range (c : Customizations) (field : VarField)
    (originalText : JSStr)
    (h : variationIndex c field < 0 ∨
      ((variations field originalText).length : Int) ≤ variationIndex c field) :
    getContentVariation c field originalText = originalText := by
  unfold getContentVariation jsIndex
  rw [dif_neg]
  · rfl
  · rintro ⟨h0, hlt⟩
    rcases h with h | h <;> omega

/-- Witness for C6: headline variation index 7 is out of range (the headline
variant array has length 4), so the original headline is returned. -/
theorem variation_fallback_out_of_range_witness :
    (variationIndex { defaultCustomizations with headlineVariation := 7 }
        .headline < 0 ∨
      ((variations .headline (sLit "Save Today")).length : Int) ≤
        variationIndex { defaultCustomizations with headlineVariation := 7 }
          .headline) ∧
      getContentVariation { defaultCustomizations with headlineVariation := 7 }
        .headline (sLit "Save Today") = sLit "Save Today" :=
  ⟨by decide,
    variation_fallback_out_of_range _ .headline (sLit "Save Today") (by decide)⟩

/-- C10.  For every CTA variation index in 1..4 the resolved CTA text is one
of the four fixed strings `Get Started` / `Learn More` / `Try Now` /
`Shop Today`, independent of the original call-to-action text (index 0 and
out-of-range indices return the original, by C6's theorem); by contrast every
headline and description variant embeds the original text as a substring. -/
theorem cta_variation_fixed (c : Customizations) (h1 : 1 ≤ c.ctaVariation)
    (h4 : c.ctaVariation ≤ 4) :
    (∀ o o' : JSStr,
        getContentVariation c .cta o = getContentVariation c .cta o') ∧
      (∀ o : JSStr, getContentVariation c .cta o ∈
        [sLit "Get Started", sLit "Learn More", sLit "Try Now",
          sLit "Shop Today"]) ∧
      (∀ o : JSStr, ∀ v ∈ variations .headline o, ∃ p q, v = p ++ o ++ q) ∧
      (∀ o : JSStr, ∀ v ∈ variations .description o, ∃ p q, v = p ++ o ++ q) := by
  have h14 : c.ctaVariation = 1 ∨ c.ctaVariation = 2 ∨ c.ctaVariation = 3 ∨
      c.ctaVariation = 4 := by omega
  refine ⟨?_, ?_, ?_, ?_⟩
  · intro o o'
    rcases h14 with h | h | h | h
    · rw [getContentVariation_cta_one c h, getContentVariation_cta_one c h]
    · rw [getContentVariation_cta_two c h, getContentVariation_cta_two c h]
    · rw [getContentVariation_cta_three c h, getContentVariation_cta_three c h]
    · rw [getContentVariation_cta_four c h, getContentVariation_cta_four c h]
  · intro o
    rcases h14 with h | h | h | h
    · rw [getContentVariation_cta_one c h o]; simp
    · rw [getContentVariation_cta_two c h o]; simp
    · rw [getContentVariation_cta_three c h o]; simp
    · rw [getContentVariation_cta_four c h o]; simp
  · intro o v hv
    simp only [variations, List.mem_cons, List.not_mem_nil, or_false] at hv
    rcases hv with rfl | rfl | rfl | rfl
    · exact ⟨[], [], by simp⟩
    · exact ⟨[], sLit " - Limited Time!", by simp⟩
    · exact ⟨sLit "New: ", [], by simp⟩
    · exact ⟨[], sLit " 🔥", by simp⟩
  · intro o v hv
    simp only [variations, List.mem_cons, List.not_mem_nil, or_false] at hv
    rcases hv with rfl | rfl | rfl | rfl
    · exact ⟨[], [], by simp⟩
    · exact ⟨[], sLit " Act now!", by simp⟩
    · exact ⟨sLit "Exclusive: ", [], by simp⟩
    · exact ⟨[], sLit " Don't miss out!", by simp⟩

/-- Witness for C10: CTA variation index 2 resolves to `Learn More` for two
different original texts. -/
theorem cta_variation_fixed_witness :
    (1 : Int) ≤ 2 ∧ (2 : Int) ≤ 4 ∧
      getContentVariation { defaultCustomizations with ctaVariation := 2 } .cta
          (sLit "Shop Now") =
        getContentVariation { defaultCustomizations with ctaVariation := 2 }
          .cta (sLit "Buy It") ∧
      getContentVariation { defaultCustomizations with ctaVariation := 2 } .cta
          (sLit "Shop Now") ∈
        [sLit "Get Started", sLit "Learn More", sLit "Try Now",
          sLit "Shop Today"] :=
  ⟨by decide, by decide,
    (cta_variation_fixed { defaultCustomizations with ctaVariation := 2 }
        (by decide) (by decide)).1 (sLit "Shop Now") (sLit "Buy It"),
    (cta_variation_fixed { defaultCustomizations with ctaVariation := 2 }
        (by decide) (by decide)).2.1 (sLit "Shop Now")⟩

/-- C5.  Rendering is idempotent as a transformation of the surface: invoking
the render procedure twice in succession with the same fixed inputs yields
the same surface as invoking it once.  The dimension assignment at the start
of `updatePreview` resets the surface (HTML canvas semantics), so the emitted
operation list — and hence the pixel output under any deterministic
text-measurement backend `μ` — does not depend on the previous surface state
at all (second conjunct). -/
theorem render_idempotent (μ : Font → JSStr → ℚ) (c : Customizations)
    (content : AdContent) (previewMode : String) (cv cv' : Canvas) :
    render μ c content previewMode (render μ c content previewMode cv) =
        render μ c content previewMode cv ∧
      render μ c content previewMode cv = render μ c content previewMode cv' :=
  ⟨rfl, rfl⟩

/-- C4 counterexample: with the centered layout, padding 20 (within [10,40])
and the mobile surface 320×400, the headline region anchored at its `(x, y)`
corner reaches `x + maxWidth = 160 + 280 = 440 > 320`, so not every computed
region lies within `[0, surfaceWidth] × [0, surfaceHeight]` as stated. -/
theorem layout_bounds_counterexample :
    (10 : ℚ) ≤
        ({ defaultCustomizations with layout := "centered" } :
          Customizations).padding ∧
      ({ defaultCustomizations with layout := "centered" } :
          Customizations).padding ≤ 40 ∧
      ¬ layoutInBounds
          (calculateLayout { defaultCustomizations with layout := "centered" }
            320 400) 320 400 := by
  refine ⟨by norm_num [defaultCustomizations], by norm_num [defaultCustomizations], ?_⟩
  intro hin
  unfold layoutInBounds textRegionInBounds at hin
  rw [calculateLayout_centered _ _ _ rfl] at hin
  obtain ⟨⟨-, h2, -, -⟩, -, -⟩ := hin
  norm_num [defaultCustomizations] at h2

/-- C4 amended.  For every layout mode (the three named modes, plus any other
string, which the code treats as `standard`), every padding in [10, 40] and
every preview mode (each yielding one of the three surface sizes), all
computed regions lie within the surface — where the centered layout's text
regions, whose `x` is the horizontal midpoint, are read as spanning
`[x - maxWidth/2, x + maxWidth/2]`, and everything else is anchored at its
`(x, y)` corner as stated. -/
theorem layout_regions_in_bounds (c : Customizations) (mode : String)
    (h10 : 10 ≤ c.padding) (h40 : c.padding ≤ 40) :
    layoutInBoundsCenteredText c
      (calculateLayout c (getCanvasDimensions mode).1
        (getCanvasDimensions mode).2)
      (getCanvasDimensions mode).1 (getCanvasDimensions mode).2 := by
  have main : ∀ w h : ℚ, 320 ≤ w → 400 ≤ h →
      layoutInBoundsCenteredText c (calculateLayout c w h) w h := by
    intro w h hw hh
    unfold layoutInBoundsCenteredText textRegionInBounds
      textRegionInBoundsCentered rectRegionInBounds
    by_cases hc : c.layout = "centered"
    · rw [calculateLayout_centered _ _ _ hc, if_pos hc]
      dsimp only
      refine ⟨⟨⟨?_, ?_, ?_, ?_⟩, ?_, ?_, ?_, ?_⟩, ?_, ?_, ?_, ?_⟩ <;> linarith
    · by_cases hs : c.layout = "split"
      · rw [calculateLayout_split _ _ _ hs, if_neg hc]
        dsimp only
        refine ⟨⟨⟨?_, ?_, ?_, ?_⟩, ?_, ?_, ?_, ?_⟩, ?_, ?_, ?_, ?_⟩ <;> linarith
      · rw [calculateLayout_default _ _ _ hc hs, if_neg hc]
        dsimp only
        refine ⟨⟨⟨?_, ?_, ?_, ?_⟩, ?_, ?_, ?_, ?_⟩, ?_, ?_, ?_, ?_⟩ <;> linarith
  by_cases m1 : mode = "mobile"
  · rw [m1, getCanvasDimensions_mobile]
    exact main 320 400 (by norm_num) (by norm_num)
  · by_cases m2 : mode = "tablet"
    · rw [m2, getCanvasDimensions_tablet]
      exact main 768 500 (by norm_num) (by norm_num)
    · rw [getCanvasDimensions_other mode m1 m2]
      exact main 600 400 (by norm_num) (by norm_num)

/-- Witness for C4 at a concrete input: the default customizations (standard
layout, padding 20) on the desktop surface. -/
theorem layout_regions_in_bounds_witness :
    (10 : ℚ) ≤ defaultCustomizations.padding ∧
      defaultCustomizations.padding ≤ 40 ∧
      layoutInBoundsCenteredText defaultCustomizations
        (calculateLayout defaultCustomizations 600 400) 600 400 :=
  ⟨by norm_num [defaultCustomizations], by norm_num [defaultCustomizations],
    layout_regions_in_bounds defaultCustomizations "desktop"
      (by norm_num [defaultCustomizations])
      (by norm_num [defaultCustomizations])⟩

/-- C8 counterexample: with the centered layout on the mobile surface and the
component's default customizations, the headline is drawn with text alignment
`"left"` (the value of `customizations.textAlignment`, which the centered
layout does not override), not `"center"`: the first headline drawing
operation carries alignment `"left"`. -/
theorem centered_mobile_alignment_counterexample :
    ({ defaultCustomizations with layout := "centered" } :
        Customizations).textAlignment = "left" ∧
      (headlineOps lengthMeasure
          { defaultCustomizations with layout := "centered" } sampleContent
          320 400).head? =
        some (Op.fillText "#000000" ⟨true, 20, "Inter"⟩ "left"
          (sLit "Save Today") 160 60 true) ∧
      ("left" : String) ≠ "center" := by
  refine ⟨rfl, ?_, by decide⟩
  have hgc : getContentVariation
      { defaultCustomizations with layout := "centered" } .headline
      sampleContent.headline = sLit "Save Today" := by decide
  have hmw : (320 : ℚ) -
      ({ defaultCustomizations with layout := "centered" } :
        Customizations).padding * 2 = 280 := by
    norm_num [defaultCustomizations]
  have hw : wrapText (fun s => (s.length : ℚ)) (sLit "Save Today") 280 =
      [sLit "Save Today"] := by decide
  unfold headlineOps drawText
  rw [calculateLayout_centered _ _ _ rfl]
  dsimp only
  rw [lengthMeasure_apply, hgc, hmw, hw]
  norm_num [headlineFont, defaultCustomizations, Op.fillText.injEq,
    Font.mk.injEq, List.enum, List.enumFrom]

/-- C8 amended.  For every customization with the centered layout on the
mobile surface (320×400), the headline and description `x`-coordinates equal
`surfaceWidth/2 = 160` and the CTA rectangle is horizontally centered at
`x = 160 - 60 = 100`; the text is drawn with the customization's
`textAlignment` (by default `"left"` — the centered layout does not force
center text alignment). -/
theorem centered_mobile_layout (c : Customizations)
    (hc : c.layout = "centered") :
    (calculateLayout c 320 400).headline.x = 160 ∧
      (calculateLayout c 320 400).description.x = 160 ∧
      (calculateLayout c 320 400).cta.x = 100 ∧
      (∀ (μ : Font → JSStr → ℚ) (content : AdContent) (op : Op),
        op ∈ headlineOps μ c content 320 400 ++
            descriptionOps μ c content 320 400 →
          op.textAlign = some c.textAlignment) := by
  rw [calculateLayout_centered _ _ _ hc]
  refine ⟨by norm_num, by norm_num, by norm_num, ?_⟩
  intro μ content op hop
  rcases List.mem_append.mp hop with h | h
  · exact headlineOps_textAlign μ c content 320 400 op h
  · exact descriptionOps_textAlign μ c content 320 400 op h

/-- Witness for C8 at a concrete input: the default customizations switched to
the centered layout. -/
theorem centered_mobile_layout_witness :
    ({ defaultCustomizations with layout := "centered" } :
        Customizations).layout = "centered" ∧
      (calculateLayout { defaultCustomizations with layout := "centered" }
          320 400).headline.x = 160 ∧
      (calculateLayout { defaultCustomizations with layout := "centered" }
          320 400).cta.x = 100 :=
  ⟨rfl,
    (centered_mobile_layout _ rfl).1,
    (centered_mobile_layout _ rfl).2.2.1⟩

/-- C2 counterexample: for the specification's scenario (the scenario's
customization values are exactly the component defaults: standard layout,
padding 20, fontSize 16, the three default colors) on the 600×400 surface,
the layout places the headline baseline at y = padding + 40 = 60 (not 44),
the first description baseline at y = padding + 100 = 120 (not 100), and the
CTA rectangle at y = height - padding - 50 = 330 (not 340). -/
theorem standardScenario_counterexample :
    (calculateLayout defaultCustomizations 600 400).headline.y = 60 ∧
      (60 : ℚ) ≠ 44 ∧
      (calculateLayout defaultCustomizations 600 400).description.y = 120 ∧
      (120 : ℚ) ≠ 100 ∧
      (calculateLayout defaultCustomizations 600 400).cta.y = 330 ∧
      (330 : ℚ) ≠ 340 := by
  rw [calculateLayout_default _ _ _ (by decide) (by decide)]
  norm_num [defaultCustomizations]

/-- C2 amended.  For the scenario's content and customization on the 600×400
surface, the render places the headline baseline at (20, 60), the first
description line baseline at (20, 120), and the CTA rectangle at x = 20,
y = 330 with width 120 and height 40 (shown both as the computed layout and
as the drawing operations the render emits, under the one-unit-per-character
measurement backend). -/
theorem standardScenario_positions :
    calculateLayout defaultCustomizations 600 400 =
        ⟨⟨20, 60, 560⟩, ⟨20, 120, 560⟩, ⟨20, 330, 120, 40⟩⟩ ∧
      Op.fillText "#000000" ⟨true, 20, "Inter"⟩ "left" (sLit "Save Today")
          20 60 true ∈
        updatePreview lengthMeasure defaultCustomizations sampleContent
          "desktop" ∧
      Op.fillText "#000000" ⟨false, 16, "Inter"⟩ "left" (sLit "Get 20% off")
          20 120 true ∈
        updatePreview lengthMeasure defaultCustomizations sampleContent
          "desktop" ∧
      Op.fillRect "#007bff" 20 330 120 40 true ∈
        updatePreview lengthMeasure defaultCustomizations sampleContent
          "desktop" := by
  have hmw : (600 : ℚ) - defaultCustomizations.padding * 2 = 560 := by
    norm_num [defaultCustomizations]
  have hH : headlineOps lengthMeasure defaultCustomizations sampleContent
      600 400 =
      [Op.fillText "#000000" ⟨true, 20, "Inter"⟩ "left" (sLit "Save Today")
        20 60 true] := by
    have hgc : getContentVariation defaultCustomizations .headline
        sampleContent.headline = sLit "Save Today" := by decide
    have hw : wrapText (fun s => (s.length : ℚ)) (sLit "Save Today") 560 =
        [sLit "Save Today"] := by decide
    unfold headlineOps drawText
    rw [calculateLayout_default _ _ _ (by decide) (by decide)]
    dsimp only
    rw [lengthMeasure_apply, hgc, hmw, hw]
    norm_num [headlineFont, defaultCustomizations, Op.fillText.injEq,
      Font.mk.injEq, List.enum, List.enumFrom]
  have hD : descriptionOps lengthMeasure defaultCustomizations sampleContent
      600 400 =
      [Op.fillText "#000000" ⟨false, 16, "Inter"⟩ "left" (sLit "Get 20% off")
        20 120 true] := by
    have hgc : getContentVariation defaultCustomizations .description
        sampleContent.description = sLit "Get 20% off" := by decide
    have hw : wrapText (fun s => (s.length : ℚ)) (sLit "Get 20% off") 560 =
        [sLit "Get 20% off"] := by decide
    unfold descriptionOps drawText
    rw [calculateLayout_default _ _ _ (by decide) (by decide)]
    dsimp only
    rw [lengthMeasure_apply, hgc, hmw, hw]
    norm_num [bodyFont, defaultCustomizations, Op.fillText.injEq,
      Font.mk.injEq, List.enum, List.enumFrom]
  have hB : Op.fillRect "#007bff" 20 330 120 40 true ∈
      buttonOps defaultCustomizations sampleContent 600 400 := by
    unfold buttonOps
    rw [calculateLayout_default _ _ _ (by decide) (by decide)]
    dsimp only
    have he : Op.fillRect defaultCustomizations.accentColor
        defaultCustomizations.padding
        (400 - defaultCustomizations.padding - 50) 120 40
        (decide (0 < defaultCustomizations.borderRadius)) =
        Op.fillRect "#007bff" 20 330 120 40 true := by
      norm_num [defaultCustomizations, Op.fillRect.injEq]
    rw [← he]
    exact List.mem_cons_self _ _
  refine ⟨?_, ?_, ?_, ?_⟩
  · rw [calculateLayout_default _ _ _ (by decide) (by decide)]
    norm_num [defaultCustomizations, AdLayout.mk.injEq, TextRegion.mk.injEq,
      RectRegion.mk.injEq]
  · simp only [updatePreview, getCanvasDimensions_desktop, List.mem_append,
      or_assoc]
    rw [hH]
    simp
  · simp only [updatePreview, getCanvasDimensions_desktop, List.mem_append,
      or_assoc]
    rw [hD]
    simp
  · simp only [updatePreview, getCanvasDimensions_desktop, List.mem_append,
      or_assoc]
    exact Or.inr (Or.inr (Or.inr (Or.inr (Or.inr hB))))

/-- C3 counterexample: with the default customizations (borderRadius 8 > 0),
the very first operation the render issues is the background fill — emitted
before the rounded-rectangle clip is installed and therefore not clipped, so
the background fill does not respect the rounded silhouette. -/
theorem clip_after_fill_counterexample :
    0 < defaultCustomizations.borderRadius ∧
      (updatePreview lengthMeasure defaultCustomizations sampleContent
          "desktop").head? =
        some (Op.fillRect "#ffffff" 0 0 600 400 false) ∧
      Op.clippedFlag (Op.fillRect "#ffffff" 0 0 600 400 false) = false := by
  refine ⟨by norm_num [defaultCustomizations], ?_, rfl⟩
  simp [updatePreview, backgroundOps, defaultCustomizations]

/-- C3 amended.  When `borderRadius > 0` the render installs the
rounded-rectangle clip as its *second* step, immediately after the
(unclipped) background fill: the first operation is the background fill with
no clip, the second is the clip path over the full surface bounds, and every
subsequent drawing operation (gradient overlay, headline, description, CTA
button) is intersected with the clip. -/
theorem clip_applies_after_background (μ : Font → JSStr → ℚ)
    (c : Customizations) (content : AdContent) (mode : String)
    (hbr : 0 < c.borderRadius) :
    (updatePreview μ c content mode).head? =
        some (Op.fillRect c.backgroundColor 0 0 (getCanvasDimensions mode).1
          (getCanvasDimensions mode).2 false) ∧
      (updatePreview μ c content mode).get? 1 =
        some (Op.clipRoundRect 0 0 (getCanvasDimensions mode).1
          (getCanvasDimensions mode).2 c.borderRadius) ∧
      (∀ op : Op,
        op ∈ gradientOps c (getCanvasDimensions mode).1
            (getCanvasDimensions mode).2 ++
          headlineOps μ c content (getCanvasDimensions mode).1
            (getCanvasDimensions mode).2 ++
          descriptionOps μ c content (getCanvasDimensions mode).1
            (getCanvasDimensions mode).2 ++
          buttonOps c content (getCanvasDimensions mode).1
            (getCanvasDimensions mode).2 →
        op.clippedFlag = true) := by
  refine ⟨?_, ?_, ?_⟩
  · simp [updatePreview, backgroundOps]
  · simp [updatePreview, backgroundOps, clipOps, hbr]
  · intro op hop
    have hdec : decide (0 < c.borderRadius) = true := decide_eq_true hbr
    rcases List.mem_append.mp hop with hop | hop
    · rcases List.mem_append.mp hop with hop | hop
      · rcases List.mem_append.mp hop with hop | hop
        · rw [gradientOps_clippedFlag c _ _ op hop, hdec]
        · rw [headlineOps_clippedFlag μ c content _ _ op hop, hdec]
      · rw [descriptionOps_clippedFlag μ c content _ _ op hop, hdec]
    · rw [buttonOps_clippedFlag c content _ _ op hop, hdec]

/-- Witness for C3's amended theorem at a concrete input. -/
theorem clip_applies_after_background_witness :
    0 < defaultCustomizations.borderRadius ∧
      (updatePreview lengthMeasure defaultCustomizations sampleContent
          "desktop").get? 1 =
        some (Op.clipRoundRect 0 0 600 400
          defaultCustomizations.borderRadius) :=
  ⟨by norm_num [defaultCustomizations],
    (clip_applies_after_background lengthMeasure defaultCustomizations
        sampleContent "desktop" (by norm_num [defaultCustomizations])).2.1⟩

/-- C7.  The render draws a gradient overlay iff `accentColor` differs from
`backgroundColor`; when it does, the gradient runs along the full-surface
diagonal from `backgroundColor` at stop 0 to `accentColor` with the hex-alpha
suffix `'20'` at stop 1 — and that suffix denotes 32/255 ≈ 12.5% opacity
(`hexByte "20" = 32`), not the 20% the source comment says.  When the colors
are equal no gradient operation is emitted, leaving the flat background fill
unchanged. -/
theorem gradient_overlay (μ : Font → JSStr → ℚ) (c : Customizations)
    (content : AdContent) (mode : String) :
    ((∃ op ∈ updatePreview μ c content mode, op.isGradient = true) ↔
        c.accentColor ≠ c.backgroundColor) ∧
      (c.accentColor ≠ c.backgroundColor →
        Op.gradientFillRect 0 0 (getCanvasDimensions mode).1
            (getCanvasDimensions mode).2
            [(0, c.backgroundColor),
              (1, c.accentColor ++ gradientAlphaSuffix)]
            0 0 (getCanvasDimensions mode).1 (getCanvasDimensions mode).2
            (decide (0 < c.borderRadius)) ∈
          updatePreview μ c content mode) ∧
      hexByte gradientAlphaSuffix = some 32 := by
  have hmem : c.accentColor ≠ c.backgroundColor →
      Op.gradientFillRect 0 0 (getCanvasDimensions mode).1
          (getCanvasDimensions mode).2
          [(0, c.backgroundColor), (1, c.accentColor ++ gradientAlphaSuffix)]
          0 0 (getCanvasDimensions mode).1 (getCanvasDimensions mode).2
          (decide (0 < c.borderRadius)) ∈ updatePreview μ c content mode := by
    intro hne
    have h := mem_gradientOps c (getCanvasDimensions mode).1
      (getCanvasDimensions mode).2 hne
    simp only [updatePreview, List.mem_append, or_assoc]
    exact Or.inr (Or.inr (Or.inl h))
  refine ⟨⟨?_, ?_⟩, hmem, by decide⟩
  · rintro ⟨op, hop, hg⟩
    intro heq
    simp only [updatePreview, List.mem_append, or_assoc] at hop
    rcases hop with hop | hop | hop | hop | hop | hop
    · rw [backgroundOps_not_gradient c _ _ op hop] at hg
      exact Bool.false_ne_true hg
    · rw [clipOps_not_gradient c _ _ op hop] at hg
      exact Bool.false_ne_true hg
    · rw [gradientOps_empty c _ _ heq] at hop
      exact List.not_mem_nil op hop
    · rw [headlineOps_not_gradient μ c content _ _ op hop] at hg
      exact Bool.false_ne_true hg
    · rw [descriptionOps_not_gradient μ c content _ _ op hop] at hg
      exact Bool.false_ne_true hg
    · rw [buttonOps_not_gradient c content _ _ op hop] at hg
      exact Bool.false_ne_true hg
  · intro hne
    exact ⟨_, hmem hne, rfl⟩

/-- Witness for C7 at a concrete input: the default colors differ, so the
gradient operation with stops `#ffffff` and `#007bff` + `'20'` is emitted. -/
theorem gradient_overlay_witness :
    ("#007bff" : String) ≠ "#ffffff" ∧
      Op.gradientFillRect 0 0 600 400
          [(0, "#ffffff"), (1, "#007bff" ++ gradientAlphaSuffix)]
          0 0 600 400 true ∈
        updatePreview lengthMeasure defaultCustomizations sampleContent
          "desktop" ∧
      hexByte gradientAlphaSuffix = some 32 :=
  ⟨by decide,
    (gradient_overlay lengthMeasure defaultCustomizations sampleContent
        "desktop").2.1 (by decide),
    (gradient_overlay lengthMeasure defaultCustomizations sampleContent
        "desktop").2.2⟩

end AlphaCreatorAds
